import Mathlib

/-!
Verification of the Secure Local Vault + Emergency Activation Protocol
(habeas mobile app core) against its source.

The development shallowly embeds the TypeScript source:

* `SecureStorage` (apps/mobile/src/utils/secureStorage.ts, the revision
  appended to emergencyHandler.ts): JSON-serialize + AES-encrypt on save,
  decrypt + parse on load, with the try/catch structure translated to
  `Option`-valued results.
* `EmergencyHandler.activateEmergency` / `deactivateEmergency`
  (apps/mobile/src/utils/emergencyHandler.ts).
* `PersonalInfoScreen.addEmergencyContact` / `removeEmergencyContact`
  (apps/mobile/src/screens/PersonalInfoScreen.tsx).
* The `EmergencySlider` gesture state machine
  (apps/mobile/src/components/EmergencySlider.tsx).

External libraries are modeled one abstraction each:

* `JSON.stringify` / `JSON.parse` are modeled at the level of JSON trees
  (`Json`): stringify produces the tree, parse recovers it or fails on a
  non-JSON plaintext.
* `CryptoJS.AES` is modeled as a ciphertext carrying the plaintext tagged
  with the key it was encrypted under; decryption succeeds exactly when the
  supplied key matches, and fails on corrupt blobs - capturing
  wrong-key/corruption decode failures without bit-level cryptography.
* `AsyncStorage` is a total map from string keys to blobs; a fallible write
  is modeled by a `writeOk` flag where the claim under scrutiny concerns
  storage failure.
* React state is modeled as directly-updated state; `Animated.timing` is a
  linear interpolation over wall-clock time, and starting a new animation on
  a value interrupts the running one, invoking its completion callback with
  `finished = false` (the net state change of the nested callbacks is taken).
-/

namespace Habeas

/-- Json trees, the measurable image of `JSON.stringify`: the wire text layer
is abstracted away, values are compared as JSON trees. -/
inductive Json : Type where
  | str (s : String)
  | num (n : Int)
  | bool (b : Bool)
  | null
  | arr (xs : List Json)
  | obj (fields : List (String × Json))
  deriving Repr

/-- Plaintext inside a ciphertext: either a valid JSON document or a string
that `JSON.parse` rejects. -/
inductive PlainText : Type where
  | ofJson (j : Json)
  | invalid (s : String)
  deriving Repr

/-- A stored blob: either a CryptoJS ciphertext (tagged with the key that
produced it) or raw garbage bytes written outside the vault. -/
inductive Blob : Type where
  | encrypted (key : String) (data : PlainText)
  | corrupt (s : String)
  deriving Repr

/-- Device persistent storage (`AsyncStorage`): a map from string keys to
blobs; `none` means no entry. -/
def Vault : Type := String → Option Blob

/-- The empty device storage. -/
def emptyVault : Vault := fun _ => none

namespace SecureStorage

/-- Model of `CryptoJS.AES.encrypt(data, key).toString()`: a ciphertext
tagged with the encryption key. -/
def encrypt (key : String) (data : PlainText) : Blob :=
  Blob.encrypted key data

/-- Model of `CryptoJS.AES.decrypt(encryptedData, key)` followed by UTF-8
decoding: recovers the plaintext exactly when the key matches; a mismatched
key or corrupt blob yields a decode failure (in the source, a thrown error
or garbage caught by the surrounding try/catch). -/
def decrypt (key : String) : Blob → Option PlainText
  | Blob.encrypted k d => if k = key then some d else none
  | Blob.corrupt _ => none

/-- Model of `JSON.parse`: succeeds on a plaintext that is a JSON document. -/
def jsonParse : PlainText → Option Json
  | PlainText.ofJson j => some j
  | PlainText.invalid _ => none

/-- `SecureStorage.saveData` (secureStorage.ts): `JSON.stringify` the value,
encrypt it with the vault key, and overwrite the blob at `key` in
`AsyncStorage`. -/
def saveData (ekey : String) (store : Vault) (key : String) (data : Json) : Vault :=
  fun k => if k = key then some (encrypt ekey (PlainText.ofJson data)) else store k

/-- `SecureStorage.loadData` (secureStorage.ts): read the blob at `key`; if
absent return null (after a console.warn); otherwise decrypt and
`JSON.parse`. The catch block turns any decrypt/parse error into a logged
`null`, so the function is total and never propagates an error. -/
def loadData (ekey : String) (store : Vault) (key : String) : Option Json :=
  match store key with
  | none => none
  | some blob =>
    match decrypt ekey blob with
    | none => none
    | some plain =>
      match jsonParse plain with
      | none => none
      | some j => some j

/-- `SecureStorage.removeData`: delete the blob at `key`. -/
def removeData (store : Vault) (key : String) : Vault :=
  fun k => if k = key then none else store k

/-- `SecureStorage.hasData`: whether a blob is present at `key`. -/
def hasData (store : Vault) (key : String) : Bool :=
  (store key).isSome

end SecureStorage

/-- `EmergencyContact` (PersonalInfoScreen.tsx): id is generated locally at
creation time, the remaining fields come from the entry form. -/
structure EmergencyContact : Type where
  id : String
  name : String
  phone : String
  relationship : String
  deriving DecidableEq, Repr

/-- `PersonalInfo` (PersonalInfoScreen.tsx): the identity fields plus the
owned list of emergency contacts. -/
structure PersonalInformation : Type where
  firstName : String
  lastName : String
  countryOfBirth : String
  nationality : String
  birthDate : String
  alienNumber : String
  emergencyContacts : List EmergencyContact
  deriving DecidableEq, Repr

def kId : String := "id"
def kName : String := "name"
def kPhone : String := "phone"
def kRelationship : String := "relationship"
def kFirstName : String := "firstName"
def kLastName : String := "lastName"
def kCountryOfBirth : String := "countryOfBirth"
def kNationality : String := "nationality"
def kBirthDate : String := "birthDate"
def kAlienNumber : String := "alienNumber"
def kEmergencyContacts : String := "emergencyContacts"

/-- JSON form of an `EmergencyContact`, field order as in the object
literals of PersonalInfoScreen.tsx. -/
def EmergencyContact.toJson (c : EmergencyContact) : Json :=
  Json.obj [(kId, Json.str c.id), (kName, Json.str c.name),
    (kPhone, Json.str c.phone), (kRelationship, Json.str c.relationship)]

/-- JSON form of a `PersonalInformation` record, field order as in the
`useState` initializer of PersonalInfoScreen.tsx. -/
def PersonalInformation.toJson (p : PersonalInformation) : Json :=
  Json.obj [(kFirstName, Json.str p.firstName), (kLastName, Json.str p.lastName),
    (kCountryOfBirth, Json.str p.countryOfBirth), (kNationality, Json.str p.nationality),
    (kBirthDate, Json.str p.birthDate), (kAlienNumber, Json.str p.alienNumber),
    (kEmergencyContacts, Json.arr (p.emergencyContacts.map EmergencyContact.toJson))]

/-- Field lookup in a JSON object (first binding wins, as in JS objects). -/
def Json.getField (j : Json) (key : String) : Option Json :=
  match j with
  | Json.obj fields => fields.lookup key
  | _ => none

/-- Read a JSON string field. -/
def Json.asStr : Option Json → Option String
  | some (Json.str s) => some s
  | _ => none

/-- Decode a list of JSON contacts; fails if any element is ill-shaped. -/
def contactFromJson (j : Json) : Option EmergencyContact :=
  match Json.asStr (j.getField kId), Json.asStr (j.getField kName),
      Json.asStr (j.getField kPhone), Json.asStr (j.getField kRelationship) with
  | some i, some n, some p, some r => some ⟨i, n, p, r⟩
  | _, _, _, _ => none

/-- Decode each contact of a JSON array in order. -/
def contactsFromJsonList : List Json → Option (List EmergencyContact)
  | [] => some []
  | j :: rest =>
    match contactFromJson j, contactsFromJsonList rest with
    | some c, some cs => some (c :: cs)
    | _, _ => none

/-- Decode a `PersonalInformation` record from its JSON form (the typed
reading of `JSON.parse(jsonValue) as PersonalInfo`). -/
def piFromJson (j : Json) : Option PersonalInformation :=
  match Json.asStr (j.getField kFirstName), Json.asStr (j.getField kLastName),
      Json.asStr (j.getField kCountryOfBirth), Json.asStr (j.getField kNationality),
      Json.asStr (j.getField kBirthDate), Json.asStr (j.getField kAlienNumber),
      (match j.getField kEmergencyContacts with
       | some (Json.arr xs) => contactsFromJsonList xs
       | _ => none) with
  | some f, some l, some c, some n, some b, some a, some cs =>
    some ⟨f, l, c, n, b, a, cs⟩
  | _, _, _, _, _, _, _ => none

theorem contactFromJson_toJson (c : EmergencyContact) :
    contactFromJson c.toJson = some c := rfl

theorem contactsFromJsonList_map (cs : List EmergencyContact) :
    contactsFromJsonList (cs.map EmergencyContact.toJson) = some cs := by
  induction cs with
  | nil => rfl
  | cons c rest ih =>
    simp only [List.map_cons, contactsFromJsonList, contactFromJson_toJson, ih]

theorem piFromJson_toJson (p : PersonalInformation) :
    piFromJson p.toJson = some p := by
  cases p with
  | mk f l c n b a cs =>
    simp [piFromJson, PersonalInformation.toJson, Json.getField, Json.asStr,
      contactsFromJsonList_map, List.lookup, kFirstName, kLastName, kCountryOfBirth,
      kNationality, kBirthDate, kAlienNumber, kEmergencyContacts]

def kActivated : String := "activated"
def kActivatedAt : String := "activatedAt"
def kEmergencyType : String := "emergencyType"
def kSentNotif : String := "sentNotifications"

/-- `EmergencyState` (emergencyHandler.ts). -/
structure EmergencyState : Type where
  activated : Bool
  activatedAt : Option String
  emergencyType : Option String
  sentNotif : Bool
  deriving DecidableEq, Repr

/-- Nullable string fields serialize as JSON null when absent. -/
def optStrJson : Option String → Json
  | none => Json.null
  | some s => Json.str s

/-- JSON form of an `EmergencyState`, field order as in the object literals
of emergencyHandler.ts. -/
def EmergencyState.toJson (e : EmergencyState) : Json :=
  Json.obj [(kActivated, Json.bool e.activated), (kActivatedAt, optStrJson e.activatedAt),
    (kEmergencyType, optStrJson e.emergencyType), (kSentNotif, Json.bool e.sentNotif)]

/-- `EMERGENCY_STATE_KEY` in emergencyHandler.ts. -/
def emergencyStateKey : String := "@emergency_state"

/-- `personalInfoKey` local constant in `activateEmergency` - the same fixed
vault key the information screen writes under (`STORAGE_KEY`). -/
def personalInfoKey : String := "@personal_info"

/-- The default `emergencyType` parameter value of `activateEmergency`. -/
def generalType : String := "general"

/-- `ClientCreate` payload of the generated API (api/client.ts). -/
structure ClientCreate : Type where
  first_name : String
  last_name : String
  country_of_birth : String
  nationality : String
  birth_date : String
  alien_registration_number : Option String
  deriving DecidableEq, Repr

/-- `EmergencyContactCreate` payload of the generated API (api/client.ts). -/
structure EmergencyContactCreate : Type where
  client_id : Nat
  full_name : String
  phone_number : String
  relationship_to_client : String
  deriving DecidableEq, Repr

/-- Contact entry of the `clientInfo` argument of
`api.submitEmergencyClientInfo`. -/
structure ContactPayload : Type where
  name : String
  phone : String
  relationship : Option String
  deriving DecidableEq, Repr

/-- The `clientInfo` argument shape of `api.submitEmergencyClientInfo`. -/
structure ClientInfoPayload : Type where
  firstName : String
  lastName : String
  countryOfBirth : String
  nationality : Option String
  birthDate : String
  alienNumber : Option String
  emergencyContacts : List ContactPayload
  deriving DecidableEq, Repr

/-- The empty string. -/
def emptyStr : String := ""

/-- JS `a || b` on an optional string: an absent or empty (falsy) `a` falls
back to `b`. -/
def jsOrElse (a : Option String) (b : String) : String :=
  match a with
  | none => b
  | some s => if s = emptyStr then b else s

/-- `api.submitEmergencyClientInfo` (api/client.ts): the requests the single
opaque intake call would issue - one `ClientCreate`, then one
`EmergencyContactCreate` per emergency contact under the returned client id.
This function exists in the API client but is never invoked by
`EmergencyHandler.activateEmergency` (see C1). -/
def submitEmergencyClientInfo (clientInfo : ClientInfoPayload) (clientId : Nat) :
    ClientCreate × List EmergencyContactCreate :=
  (⟨clientInfo.firstName, clientInfo.lastName, clientInfo.countryOfBirth,
      jsOrElse clientInfo.nationality clientInfo.countryOfBirth,
      clientInfo.birthDate, clientInfo.alienNumber⟩,
   clientInfo.emergencyContacts.map fun contact =>
     ⟨clientId, contact.name, contact.phone, jsOrElse contact.relationship emptyStr⟩)

/-- Observable outcome of one run of `EmergencyHandler.activateEmergency`:
the storage after the run, the personal-info record the run loaded, how many
vault writes of the activation record were attempted, the intake submissions
issued, whether the confirmation vibration ran, and whether an error
escaped to the caller. -/
structure ActivationResult : Type where
  vault : Vault
  loadedPersonalInfo : Option Json
  writeAttempts : Nat
  submits : List (ClientCreate × List EmergencyContactCreate)
  vibrated : Bool
  raisedToCaller : Bool

/-- `EmergencyHandler.activateEmergency` (emergencyHandler.ts): inside a
try/catch it loads `@personal_info` (binding the result to a local that the
function never uses again), builds the activated `EmergencyState`, saves it
under `@emergency_state`, and vibrates. `writeOk` models whether the
underlying `AsyncStorage.setItem` succeeds; on failure `saveData` rethrows
and the catch block logs and swallows the error, so the caller sees a normal
completion either way. No call to `api.submitEmergencyClientInfo` occurs on
any path. -/
def activateEmergency (ekey : String) (emergencyType : String) (now : String)
    (writeOk : Bool) (vault : Vault) : ActivationResult :=
  let personalInfo := SecureStorage.loadData ekey vault personalInfoKey
  let newState : EmergencyState := ⟨true, some now, some emergencyType, false⟩
  if writeOk then
    { vault := SecureStorage.saveData ekey vault emergencyStateKey newState.toJson,
      loadedPersonalInfo := personalInfo, writeAttempts := 1, submits := [],
      vibrated := true, raisedToCaller := false }
  else
    { vault := vault, loadedPersonalInfo := personalInfo, writeAttempts := 1,
      submits := [], vibrated := false, raisedToCaller := false }

/-- `activateEmergency()` with the `emergencyType = 'general'` default. -/
def activateEmergencyDefault (ekey : String) (now : String) (writeOk : Bool)
    (vault : Vault) : ActivationResult :=
  activateEmergency ekey generalType now writeOk vault

/-- A concrete vault key for concrete instances. -/
def demoKey : String := "vault-key-1"

/-- A concrete activation timestamp. -/
def demoNow : String := "2025-01-01T00:00:00.000Z"

/-- The end-to-end scenario contact of the spec: Sam. -/
def samContact : EmergencyContact where
  id := "1700000000000"
  name := "Sam"
  phone := "+15550001111"
  relationship := "friend"

/-- The end-to-end scenario record of the spec: Jane with one contact. -/
def janeInfo : PersonalInformation where
  firstName := "Jane"
  lastName := "Doe"
  countryOfBirth := "Utopia"
  nationality := "Utopian"
  birthDate := "1990-01-01"
  alienNumber := "A000111222"
  emergencyContacts := [samContact]

/-- A vault holding Jane's record under `@personal_info`. -/
def vaultWithJane : Vault :=
  SecureStorage.saveData demoKey emptyVault personalInfoKey janeInfo.toJson

/-- C1: the claim says `activateEmergency` attempts exactly one submission of
a present `@personal_info` record to `api.submitEmergencyClientInfo`. The
code never calls the intake API on any path: even when the record is present
in the vault (it is loaded into a local binding), the list of issued intake
submissions is empty, not a singleton. -/
theorem C1_activation_never_submits :
    (∀ ekey ty now writeOk vault,
      (activateEmergency ekey ty now writeOk vault).submits = []) ∧
    (activateEmergency demoKey generalType demoNow true vaultWithJane).loadedPersonalInfo
      = some janeInfo.toJson := by
  constructor
  · intro ekey ty now writeOk vault
    cases writeOk <;> rfl
  · simp [activateEmergency, vaultWithJane, SecureStorage.loadData, SecureStorage.saveData,
      SecureStorage.encrypt, SecureStorage.decrypt, SecureStorage.jsonParse]

/-- C2 counterexample: an activation whose storage write fails completes
normally with the activation record absent from the vault after a single
write attempt - refuting both the silent retry and that `activateEmergency`
completes only with the activation record durably stored. -/
theorem C2_no_retry_counterexample :
    (activateEmergency demoKey generalType demoNow false emptyVault).writeAttempts = 1
    ∧ (activateEmergency demoKey generalType demoNow false emptyVault).vault
        emergencyStateKey = none
    ∧ (activateEmergency demoKey generalType demoNow false emptyVault).raisedToCaller
        = false := by
  refine ⟨rfl, rfl, rfl⟩

/-- C2 amended: a failed vault write of the activation record is caught and
logged, so the caller observes a normal completion in every case, but the
write is attempted exactly once - there is no retry - and on failure the
vault is left unchanged, so activation can complete without the activation
record stored; on a successful write the record is durably stored. -/
theorem C2_swallowed_single_attempt (ekey ty now : String) (vault : Vault) :
    ((activateEmergency ekey ty now false vault).raisedToCaller = false
      ∧ (activateEmergency ekey ty now false vault).writeAttempts = 1
      ∧ (activateEmergency ekey ty now false vault).vault = vault)
    ∧ ((activateEmergency ekey ty now true vault).raisedToCaller = false
      ∧ (activateEmergency ekey ty now true vault).vault emergencyStateKey
          = some (SecureStorage.encrypt ekey
              (PlainText.ofJson (EmergencyState.toJson ⟨true, some now, some ty, false⟩)))) := by
  refine ⟨⟨rfl, rfl, rfl⟩, rfl, ?_⟩
  simp [activateEmergency, SecureStorage.saveData]

/-- C3: every successful-write run of `activateEmergency` stores
`{activated: true, activatedAt: now, emergencyType: the given type,
sentNotifications: false}` under `@emergency_state` - for every starting
vault, including the empty vault where loading `@personal_info` returns
null - and the zero-argument form defaults the type to `general`. -/
theorem C3_activation_unconditional (ekey ty now : String) (vault : Vault) :
    SecureStorage.loadData ekey (activateEmergency ekey ty now true vault).vault
        emergencyStateKey
      = some (EmergencyState.toJson ⟨true, some now, some ty, false⟩)
    ∧ (activateEmergency ekey ty now true emptyVault).loadedPersonalInfo = none
    ∧ activateEmergencyDefault ekey now true vault
        = activateEmergency ekey generalType now true vault := by
  refine ⟨?_, rfl, rfl⟩
  simp [activateEmergency, SecureStorage.loadData, SecureStorage.saveData,
    SecureStorage.encrypt, SecureStorage.decrypt, SecureStorage.jsonParse]

/-- C6: `loadData` returns null when no blob is stored at the key, and
returns null when a blob is present but fails to decrypt (corrupt bytes, or
a ciphertext under a different/rotated key) or fails to parse as JSON; it is
a total function, so no error propagates out of the call in any of these
cases. -/
theorem C6_load_failure_as_null (ekey : String) (store : Vault) (key : String) :
    (store key = none → SecureStorage.loadData ekey store key = none)
    ∧ (∀ s, store key = some (Blob.corrupt s) →
        SecureStorage.loadData ekey store key = none)
    ∧ (∀ k d, store key = some (Blob.encrypted k d) → k ≠ ekey →
        SecureStorage.loadData ekey store key = none)
    ∧ (∀ s, store key = some (Blob.encrypted ekey (PlainText.invalid s)) →
        SecureStorage.loadData ekey store key = none) := by
  refine ⟨?_, ?_, ?_, ?_⟩
  · intro h; simp [SecureStorage.loadData, h]
  · intro s h; simp [SecureStorage.loadData, h, SecureStorage.decrypt]
  · intro k d h hk; simp [SecureStorage.loadData, h, SecureStorage.decrypt, hk]
  · intro s h
    simp [SecureStorage.loadData, h, SecureStorage.decrypt, SecureStorage.jsonParse]

/-- A blob of garbage bytes written directly under a vault key. -/
def garbageBytes : String := "not-a-ciphertext"

/-- A vault whose `@personal_info` entry is garbage. -/
def garbageVault : Vault :=
  fun k => if k = personalInfoKey then some (Blob.corrupt garbageBytes) else none

theorem C6_witness :
    SecureStorage.loadData demoKey garbageVault personalInfoKey = none := by
  exact (C6_load_failure_as_null demoKey garbageVault personalInfoKey).2.1
    garbageBytes (by simp [garbageVault])

/-- C7: the vault round-trip is the identity on stored values: saving a
serializable `PersonalInformation` value and loading the same key under the
same encryption key returns exactly the saved JSON document, and decoding
that document yields the original record. -/
theorem C7_vault_roundtrip (ekey : String) (store : Vault) (key : String)
    (v : PersonalInformation) :
    SecureStorage.loadData ekey (SecureStorage.saveData ekey store key v.toJson) key
      = some v.toJson
    ∧ piFromJson v.toJson = some v := by
  refine ⟨?_, piFromJson_toJson v⟩
  simp [SecureStorage.loadData, SecureStorage.saveData, SecureStorage.encrypt,
    SecureStorage.decrypt, SecureStorage.jsonParse]

/-- Outcome of `RNSecureKeyStore.get(ENCRYPTION_KEY_ID)`: the stored value,
a not-found rejection, or any other keystore error (e.g. a corrupted
entry) - both rejection kinds throw in JS and land in the same catch. -/
inductive KeystoreRead : Type where
  | found (key : String)
  | notFound
  | failure (msg : String)
  deriving DecidableEq, Repr

/-- Result of `SecureStorage.getEncryptionKey`: the key handed to the
caller, and the value newly persisted into the keystore, if any. -/
structure KeyResult : Type where
  key : String
  stored : Option String
  deriving DecidableEq, Repr

namespace SecureStorage

/-- One byte rendered as in `byte.toString(16).padStart(2, '0')`. -/
def byteToHex (b : Nat) : String :=
  let s := (Nat.toDigits 16 b).asString
  String.mk (List.replicate (2 - s.length) '0') ++ s

/-- `SecureStorage.generateEncryptionKey`: 32 random bytes hex-encoded and
joined - the randomness source (`crypto.getRandomValues`) is external, so
the drawn bytes are a parameter. -/
def generateEncryptionKey (bytes : List Nat) : String :=
  String.join (bytes.map byteToHex)

/-- `SecureStorage.getEncryptionKey`: try the keystore read; on success
return the stored key as-is; the catch-all turns any failed read (not-found
or otherwise) into generate-store-return of a fresh key. -/
def getEncryptionKey (read : KeystoreRead) (randomBytes : List Nat) : KeyResult :=
  match read with
  | KeystoreRead.found k => ⟨k, none⟩
  | KeystoreRead.notFound =>
    let newKey := generateEncryptionKey randomBytes
    ⟨newKey, some newKey⟩
  | KeystoreRead.failure _ =>
    let newKey := generateEncryptionKey randomBytes
    ⟨newKey, some newKey⟩

theorem length_asString (cs : List Char) : (List.asString cs).length = cs.length := rfl

theorem length_foldl_append (l : List String) (s : String) :
    (l.foldl (· ++ ·) s).length = s.length + (l.map String.length).sum := by
  induction l generalizing s with
  | nil => simp
  | cons x xs ih =>
    simp only [List.foldl_cons, List.map_cons, List.sum_cons, ih, String.length_append]
    omega

theorem length_byteToHex (b : Nat) (hb : b < 256) : (byteToHex b).length = 2 := by
  have hle : (Nat.toDigits 16 b).length ≤ 2 :=
    Nat.toDigitsCore_length 16 (by norm_num) (b + 1) b 2 (by omega) (by norm_num)
  simp only [byteToHex, String.length_append, length_asString]
  simp only [String.length, List.length_replicate]
  omega

theorem length_generateEncryptionKey (bytes : List Nat) (hlen : bytes.length = 32)
    (hbound : ∀ b ∈ bytes, b < 256) : (generateEncryptionKey bytes).length = 64 := by
  have hmap : (bytes.map byteToHex).map String.length = bytes.map fun _ => 2 := by
    rw [List.map_map]
    exact List.map_congr_left fun b hb => length_byteToHex b (hbound b hb)
  simp only [generateEncryptionKey, String.join, length_foldl_append, hmap]
  simp [List.map_const', hlen]

end SecureStorage

/-- C8: after the first invocation the key provider returns the stored key
unmodified (nothing is rewritten), and any failed keystore read - not-found
or any other error such as a corrupted entry - is treated identically:
generate a fresh random 256-bit (64 hex character) key, store it under the
fixed identifier, and return it. -/
theorem C8_key_provider (k msg : String) (bytes : List Nat)
    (hlen : bytes.length = 32) (hbound : ∀ b ∈ bytes, b < 256) :
    SecureStorage.getEncryptionKey (KeystoreRead.found k) bytes = ⟨k, none⟩
    ∧ SecureStorage.getEncryptionKey KeystoreRead.notFound bytes
        = ⟨SecureStorage.generateEncryptionKey bytes,
            some (SecureStorage.generateEncryptionKey bytes)⟩
    ∧ SecureStorage.getEncryptionKey (KeystoreRead.failure msg) bytes
        = SecureStorage.getEncryptionKey KeystoreRead.notFound bytes
    ∧ (SecureStorage.generateEncryptionKey bytes).length = 64 :=
  ⟨rfl, rfl, rfl, SecureStorage.length_generateEncryptionKey bytes hlen hbound⟩

/-- A concrete draw of 32 random bytes. -/
def demoBytes : List Nat :=
  [7, 255, 0, 16, 31, 128, 200, 9, 77, 64, 3, 250, 18, 99, 100, 101,
   1, 2, 4, 8, 15, 23, 42, 88, 123, 222, 11, 33, 55, 66, 90, 17]

/-- A concrete keystore error message. -/
def demoErrMsg : String := "corrupted entry"

/-- A concrete previously stored key. -/
def demoStoredKey : String := "previously-stored-key"

theorem C8_witness :
    SecureStorage.getEncryptionKey (KeystoreRead.failure demoErrMsg) demoBytes
      = SecureStorage.getEncryptionKey KeystoreRead.notFound demoBytes
    ∧ (SecureStorage.generateEncryptionKey demoBytes).length = 64 := by
  have h := C8_key_provider demoStoredKey demoErrMsg demoBytes (by decide) (by decide)
  exact ⟨h.2.2.1, h.2.2.2⟩

/-- Decimal digit decoding, the left inverse of `Nat.digitChar` on 0..9. -/
def digitCharInv (c : Char) : Nat :=
  if c = '0' then 0 else if c = '1' then 1 else if c = '2' then 2 else
  if c = '3' then 3 else if c = '4' then 4 else if c = '5' then 5 else
  if c = '6' then 6 else if c = '7' then 7 else if c = '8' then 8 else
  if c = '9' then 9 else 0

theorem digitCharInv_digitChar : ∀ d : Fin 10, digitCharInv (Nat.digitChar d.val) = d.val := by
  decide

theorem map_digitChar_inj {l1 l2 : List Nat} (h1 : ∀ x ∈ l1, x < 10)
    (h2 : ∀ x ∈ l2, x < 10) (h : l1.map Nat.digitChar = l2.map Nat.digitChar) :
    l1 = l2 := by
  have e1 : l1.map (fun x => digitCharInv (Nat.digitChar x)) = l1 := by
    rw [List.map_congr_left fun x hx => digitCharInv_digitChar ⟨x, h1 x hx⟩]
    exact List.map_id l1
  have e2 : l2.map (fun x => digitCharInv (Nat.digitChar x)) = l2 := by
    rw [List.map_congr_left fun x hx => digitCharInv_digitChar ⟨x, h2 x hx⟩]
    exact List.map_id l2
  have := congrArg (List.map digitCharInv) h
  rw [List.map_map, List.map_map] at this
  calc l1 = l1.map (fun x => digitCharInv (Nat.digitChar x)) := e1.symm
    _ = l2.map (fun x => digitCharInv (Nat.digitChar x)) := this
    _ = l2 := e2

theorem toDigitsCore_eq_digits (f : Nat) : ∀ (n : Nat) (l : List Char), 0 < n → n < f →
    Nat.toDigitsCore 10 f n l = ((Nat.digits 10 n).reverse.map Nat.digitChar) ++ l := by
  induction f with
  | zero => intro n l h0 hf; omega
  | succ f ih =>
    intro n l h0 hf
    rw [Nat.digits_def' (by norm_num : 1 < 10) h0]
    by_cases hdiv : n / 10 = 0
    · simp [Nat.toDigitsCore, hdiv]
    · have hlt : n / 10 < f := by
        have hn : n / 10 < n := Nat.div_lt_self h0 (by norm_num)
        omega
      have h0' : 0 < n / 10 := Nat.pos_of_ne_zero hdiv
      simp only [Nat.toDigitsCore, hdiv, if_false]
      rw [ih (n / 10) (Nat.digitChar (n % 10) :: l) h0' hlt]
      rw [Nat.digits_def' (by norm_num : 1 < 10) h0'] at *
      simp [List.append_assoc]

theorem toDigits_eq_digits (n : Nat) (h0 : 0 < n) :
    Nat.toDigits 10 n = (Nat.digits 10 n).reverse.map Nat.digitChar := by
  rw [Nat.toDigits, toDigitsCore_eq_digits (n + 1) n [] h0 (by omega), List.append_nil]

theorem data_asString (l : List Char) : (List.asString l).data = l := rfl

theorem nat_repr_injective : Function.Injective Nat.repr := by
  intro a b h
  have hd : Nat.toDigits 10 a = Nat.toDigits 10 b := by
    have h2 := congrArg String.data h
    simpa only [Nat.repr, data_asString] using h2
  have single_zero : ∀ m : Nat, 0 < m →
      Nat.toDigits 10 m = Nat.toDigits 10 0 → False := by
    intro m hm he
    have hzero : Nat.toDigits 10 0 = [Nat.digitChar 0] := rfl
    rw [toDigits_eq_digits m hm, hzero] at he
    obtain ⟨d, hd1⟩ : ∃ d, (Nat.digits 10 m).reverse = [d] := by
      have hlen := congrArg List.length he
      simp only [List.length_map, List.length_singleton] at hlen
      exact List.length_eq_one.mp hlen
    have hmem : d ∈ Nat.digits 10 m := by
      have : d ∈ (Nat.digits 10 m).reverse := by rw [hd1]; exact List.mem_singleton_self d
      exact List.mem_reverse.mp this
    have hdlt : d < 10 := Nat.digits_lt_base (by norm_num) hmem
    have hdc : Nat.digitChar d = Nat.digitChar 0 := by
      rw [hd1] at he
      simpa using he
    have hd0 : d = 0 := by
      have i1 := digitCharInv_digitChar ⟨d, hdlt⟩
      have i2 := digitCharInv_digitChar ⟨0, by norm_num⟩
      rw [hdc] at i1
      rw [i2] at i1
      exact i1.symm
    have hdig : Nat.digits 10 m = [0] := by
      have h4 := congrArg List.reverse hd1
      simpa [hd0] using h4
    have hm0 : m = 0 := by
      have h3 := Nat.ofDigits_digits 10 m
      rw [hdig] at h3
      simpa [Nat.ofDigits] using h3.symm
    omega
  rcases Nat.eq_zero_or_pos a with ha | ha
  · rcases Nat.eq_zero_or_pos b with hb | hb
    · rw [ha, hb]
    · exact absurd (hd.symm.trans (by rw [ha])) fun he => single_zero b hb he
  · rcases Nat.eq_zero_or_pos b with hb | hb
    · exact absurd (hd.trans (by rw [hb])) fun he => single_zero a ha he
    · rw [toDigits_eq_digits a ha, toDigits_eq_digits b hb] at hd
      have hrev : (Nat.digits 10 a).reverse = (Nat.digits 10 b).reverse :=
        map_digitChar_inj
          (fun x hx => Nat.digits_lt_base (by norm_num) (List.mem_reverse.mp hx))
          (fun x hx => Nat.digits_lt_base (by norm_num) (List.mem_reverse.mp hx)) hd
      exact Nat.digits.injective 10 (List.reverse_injective hrev)

/-- The `useState` initializer of PersonalInfoScreen.tsx: all fields empty,
no contacts. -/
def emptyPersonalInfo : PersonalInformation where
  firstName := emptyStr
  lastName := emptyStr
  countryOfBirth := emptyStr
  nationality := emptyStr
  birthDate := emptyStr
  alienNumber := emptyStr
  emergencyContacts := []

/-- `addEmergencyContact` (PersonalInfoScreen.tsx): a missing (falsy) name
or phone aborts with an alert and no change; otherwise a contact with
`id = Date.now().toString()` is appended - `now` is the external clock
reading in milliseconds. -/
def addEmergencyContact (now : Nat) (name phone relationship : String)
    (info : PersonalInformation) : PersonalInformation :=
  if name = emptyStr ∨ phone = emptyStr then info
  else { info with emergencyContacts :=
    info.emergencyContacts ++ [⟨Nat.repr now, name, phone, relationship⟩] }

/-- `removeEmergencyContact` (PersonalInfoScreen.tsx): keep the contacts
whose id differs. -/
def removeEmergencyContact (id : String) (info : PersonalInformation) :
    PersonalInformation :=
  { info with emergencyContacts :=
      info.emergencyContacts.filter (fun contact => contact.id ≠ id) }

/-- A user action on the contact list of the information screen. -/
inductive ContactOp : Type where
  | add (now : Nat) (name phone relationship : String)
  | remove (id : String)
  deriving DecidableEq, Repr

/-- Apply one contact operation. -/
def applyContactOp (info : PersonalInformation) : ContactOp → PersonalInformation
  | ContactOp.add now name phone relationship =>
    addEmergencyContact now name phone relationship info
  | ContactOp.remove id => removeEmergencyContact id info

/-- Apply a sequence of contact operations in order. -/
def applyContactOps (info : PersonalInformation) (ops : List ContactOp) :
    PersonalInformation :=
  ops.foldl applyContactOp info

/-- The clock values consumed by the add operations of a sequence. -/
def addClockValues : List ContactOp → List Nat
  | [] => []
  | ContactOp.add now _ _ _ :: rest => now :: addClockValues rest
  | ContactOp.remove _ :: rest => addClockValues rest

/-- The two same-millisecond adds of the C9 counterexample. -/
def sameTickOps : List ContactOp :=
  [ContactOp.add 5 janeInfo.firstName samContact.phone samContact.relationship,
   ContactOp.add 5 samContact.name samContact.phone samContact.relationship]

/-- First contact produced by `sameTickOps`. -/
def dupContactA : EmergencyContact :=
  ⟨Nat.repr 5, janeInfo.firstName, samContact.phone, samContact.relationship⟩

/-- Second contact produced by `sameTickOps`. -/
def dupContactB : EmergencyContact :=
  ⟨Nat.repr 5, samContact.name, samContact.phone, samContact.relationship⟩

/-- C9 counterexample: two adds with the same `Date.now()` millisecond
reading (here 5) produce two distinct contacts carrying the same id, so id
uniqueness fails for this operation sequence. -/
theorem C9_duplicate_id_counterexample :
    (applyContactOps emptyPersonalInfo sameTickOps).emergencyContacts
      = [dupContactA, dupContactB]
    ∧ dupContactA ≠ dupContactB
    ∧ dupContactA.id = dupContactB.id := by
  refine ⟨by decide, by decide, rfl⟩

theorem nodup_ids_invariant (ops : List ContactOp) :
    ∀ info : PersonalInformation,
    (∀ c ∈ info.emergencyContacts, ∃ tp, c.id = Nat.repr tp ∧
       ∀ t ∈ addClockValues ops, tp < t) →
    (info.emergencyContacts.map EmergencyContact.id).Nodup →
    (addClockValues ops).Pairwise (· < ·) →
    ((applyContactOps info ops).emergencyContacts.map EmergencyContact.id).Nodup := by
  induction ops with
  | nil => intro info _ hnd _; exact hnd
  | cons op rest ih =>
    intro info hinv hnd hpw
    cases op with
    | remove rid =>
      have hsub : (removeEmergencyContact rid info).emergencyContacts.Sublist
          info.emergencyContacts := List.filter_sublist _
      refine ih (removeEmergencyContact rid info) ?_ ?_ ?_
      · intro c hc
        exact hinv c (hsub.mem hc)
      · exact hnd.sublist (hsub.map EmergencyContact.id)
      · exact hpw
    | add now name phone relationship =>
      have hpw' : (addClockValues rest).Pairwise (· < ·) := (List.pairwise_cons.mp hpw).2
      have hlt : ∀ t ∈ addClockValues rest, now < t := (List.pairwise_cons.mp hpw).1
      by_cases hvalid : name = emptyStr ∨ phone = emptyStr
      · have hstep : applyContactOp info (ContactOp.add now name phone relationship)
            = info := by
          simp [applyContactOp, addEmergencyContact, hvalid]
        simp only [applyContactOps, List.foldl_cons, hstep]
        refine ih info ?_ hnd hpw'
        intro c hc
        obtain ⟨tp, htp, hbound⟩ := hinv c hc
        exact ⟨tp, htp, fun t ht => hbound t (List.mem_cons_of_mem now ht)⟩
      · have hstep : applyContactOp info (ContactOp.add now name phone relationship)
            = { info with emergencyContacts :=
                info.emergencyContacts ++ [⟨Nat.repr now, name, phone, relationship⟩] } := by
          simp [applyContactOp, addEmergencyContact, hvalid]
        simp only [applyContactOps, List.foldl_cons, hstep]
        refine ih _ ?_ ?_ hpw'
        · intro c hc
          rcases List.mem_append.mp hc with hold | hnew
          · obtain ⟨tp, htp, hbound⟩ := hinv c hold
            exact ⟨tp, htp, fun t ht => hbound t (List.mem_cons_of_mem now ht)⟩
          · refine ⟨now, ?_, hlt⟩
            rw [List.mem_singleton.mp hnew]
        · simp only [List.map_append, List.map_cons, List.map_nil]
          rw [List.nodup_append]
          refine ⟨hnd, List.nodup_singleton _, ?_⟩
          intro x hx hx'
          obtain ⟨c, hc, hcid⟩ := List.mem_map.mp hx
          obtain ⟨tp, htp, hbound⟩ := hinv c hc
          have hxnew : x = Nat.repr now := List.mem_singleton.mp hx'
          have htplt : tp < now := hbound now (List.mem_cons_self now _)
          have : Nat.repr tp = Nat.repr now := by rw [← htp, hcid, hxnew]
          exact absurd (nat_repr_injective this) (by omega)

/-- C9 amended: contact ids are assigned at creation time as
`Date.now().toString()`; for every sequence of add/remove operations in
which the clock value strictly increases across the adds (the spec's
monotonic token assumption), no two contacts present in the record share an
id - but two adds within the same millisecond violate uniqueness (see the
counterexample). -/
theorem C9_unique_ids_under_monotone_clock (ops : List ContactOp)
    (hpw : (addClockValues ops).Pairwise (· < ·)) :
    ((applyContactOps emptyPersonalInfo ops).emergencyContacts.map
        EmergencyContact.id).Nodup := by
  refine nodup_ids_invariant ops emptyPersonalInfo ?_ ?_ hpw
  · intro c hc
    simp [emptyPersonalInfo] at hc
  · simp [emptyPersonalInfo]

/-- Distinct-millisecond adds for the C9 witness. -/
def distinctTickOps : List ContactOp :=
  [ContactOp.add 5 janeInfo.firstName samContact.phone samContact.relationship,
   ContactOp.add 6 samContact.name samContact.phone samContact.relationship,
   ContactOp.remove (Nat.repr 5),
   ContactOp.add 7 janeInfo.lastName samContact.phone samContact.relationship]

theorem C9_witness :
    ((applyContactOps emptyPersonalInfo distinctTickOps).emergencyContacts.map
        EmergencyContact.id).Nodup :=
  C9_unique_ids_under_monotone_clock distinctTickOps (by decide)

/-- State of the `countdown` Animated.Value of EmergencySlider.tsx: no
animation running and holding a value, or a `Animated.timing` run toward 0
(duration 200 ms) or toward 100 (duration 3000 ms) started at `t0` from
value `v0`. Times are wall-clock milliseconds (spec 4.3: the countdown is
wall-clock driven). -/
inductive Anim : Type where
  | idle (v : ℚ)
  | toZero (t0 : ℚ) (v0 : ℚ)
  | toHundred (t0 : ℚ) (v0 : ℚ)
  deriving DecidableEq, Repr

/-- The animated value at wall-clock time `t`: linear interpolation from the
start value to the target over the animation's duration, clamped to the
animation's life span. -/
def Anim.valueAt : Anim → ℚ → ℚ
  | Anim.idle v, _ => v
  | Anim.toZero t0 v0, t => v0 - v0 * (max 0 (min (t - t0) 200)) / 200
  | Anim.toHundred t0 v0, t => v0 + (100 - v0) * (max 0 (min (t - t0) 3000)) / 3000

/-- Scheduled completion time of the running animation, if one runs. -/
def Anim.endTime : Anim → Option ℚ
  | Anim.idle _ => none
  | Anim.toZero t0 _ => some (t0 + 200)
  | Anim.toHundred t0 _ => some (t0 + 3000)

/-- EmergencySlider component state: the two useState booleans, the
`disabled` prop, the thumb offset (`translateX`), the countdown animation,
and the number of `onEmergencyActivated` invocations so far. -/
structure Slider : Type where
  isUnlocked : Bool
  isActivating : Bool
  disabled : Bool
  thumbX : ℚ
  anim : Anim
  activationCount : Nat
  deriving DecidableEq, Repr

/-- Initial render state of the component. -/
def initSlider (d : Bool) : Slider :=
  ⟨false, false, d, 0, Anim.idle 0, 0⟩

/-- `resetSlider`: clear both flags, spring the thumb back, and animate the
countdown to 0 over 200 ms. Starting the 0-target timing interrupts a
running 100-target timing, whose completion callback fires with
`finished = false` and calls `resetCountdown`; the net state change of that
nested call coincides with this one. -/
def resetSlider (t : ℚ) (s : Slider) : Slider :=
  { s with
    isUnlocked := false
    isActivating := false
    thumbX := 0
    anim := Anim.toZero t (s.anim.valueAt t) }

/-- `startEmergencyCountdown`: set `isActivating` and start the 3000 ms
timing of the countdown toward 100 from its current value. -/
def startEmergencyCountdown (t : ℚ) (s : Slider) : Slider :=
  { s with isActivating := true, anim := Anim.toHundred t (s.anim.valueAt t) }

/-- `resetCountdown`: clear `isActivating` and animate the countdown back to
0 over 200 ms. -/
def resetCountdown (t : ℚ) (s : Slider) : Slider :=
  { s with isActivating := false, anim := Anim.toZero t (s.anim.valueAt t) }

/-- The countdown listener of the useEffect: on a value update to `v`, if
`v >= 100` while `isActivating`, vibrate, clear `isActivating`, set
`isUnlocked`, and invoke `onEmergencyActivated`. -/
def listenerFire (v : ℚ) (s : Slider) : Slider :=
  if 100 ≤ v ∧ s.isActivating = true then
    { s with
      isActivating := false
      isUnlocked := true
      activationCount := s.activationCount + 1 }
  else s

/-- Events driving the component: a pan move with horizontal offset `dx`, a
touch release, a platform gesture termination, a change of the `disabled`
prop, an animation frame (a countdown value update strictly before the
scheduled end), and the animation reaching its scheduled end (the final
value update followed by the completion callback with `finished = true`). -/
inductive Ev : Type where
  | move (dx : ℚ)
  | release
  | terminate
  | setDisabled (b : Bool)
  | frame
  | animDone
  deriving DecidableEq, Repr

/-- One step of the component at wall-clock time `t`. `maxX` is the
available travel `SLIDER_WIDTH - THUMB_SIZE` (device dependent, positive).
Mirrors the PanResponder handlers, the `disabled` useEffect, and the
countdown listener plus completion callback of EmergencySlider.tsx. -/
def step (maxX t : ℚ) (s : Slider) : Ev → Slider
  | Ev.move dx =>
    if s.disabled = true ∨ s.isUnlocked = true then s
    else
      let newX := max 0 (min dx maxX)
      let s1 := { s with thumbX := newX }
      if maxX * (9/10) < newX then
        if s1.isActivating = true then s1 else startEmergencyCountdown t s1
      else
        if s1.isActivating = true then resetCountdown t s1 else s1
  | Ev.release => if s.isActivating = true then s else resetSlider t s
  | Ev.terminate => if s.isActivating = true then s else resetSlider t s
  | Ev.setDisabled b =>
    let s1 := { s with disabled := b }
    if b then resetSlider t s1 else s1
  | Ev.frame => listenerFire (s.anim.valueAt t) s
  | Ev.animDone =>
    match s.anim with
    | Anim.idle _ => s
    | Anim.toZero _ _ => { listenerFire 0 s with anim := Anim.idle 0 }
    | Anim.toHundred _ _ => { listenerFire 100 s with anim := Anim.idle 100 }

/-- Admissibility of an event at time `t`: while an animation runs, no event
outruns its scheduled end, and `animDone` happens exactly at that end (the
animation system delivers the completion at its scheduled wall-clock time);
with no animation running there is no completion to deliver. -/
def evGuard (s : Slider) (t : ℚ) (e : Ev) : Prop :=
  match s.anim with
  | Anim.idle _ => e ≠ Ev.animDone
  | Anim.toZero t0 _ => t ≤ t0 + 200 ∧ (e = Ev.animDone ↔ t = t0 + 200)
  | Anim.toHundred t0 _ => t ≤ t0 + 3000 ∧ (e = Ev.animDone ↔ t = t0 + 3000)

/-- Reachable timed states of the component: the initial render at time 0,
then admissible events at strictly increasing times (each event is a
separate turn of the single-threaded event loop). -/
inductive Reaches (maxX : ℚ) : ℚ → Slider → Prop where
  | init (d : Bool) : Reaches maxX 0 (initSlider d)
  | next {t : ℚ} {s : Slider} {t' : ℚ} {e : Ev} : Reaches maxX t s → t < t' →
      evGuard s t' e → Reaches maxX t' (step maxX t' s e)

/-- Continuation of a run from a given timed state. -/
inductive ReachesFrom (maxX t : ℚ) (s : Slider) : ℚ → Slider → Prop where
  | refl : ReachesFrom maxX t s t s
  | next {t1 : ℚ} {s1 : Slider} {t2 : ℚ} {e : Ev} : ReachesFrom maxX t s t1 s1 →
      t1 < t2 → evGuard s1 t2 e → ReachesFrom maxX t s t2 (step maxX t2 s1 e)

/-- Structural invariant of reachable states at time `t`: `isActivating`
tracks exactly a running 100-target countdown; an activating machine is not
yet unlocked; animation start times are in the past; animation start values
are in range (strictly below 100 for a running countdown); an idle countdown
value is 0, or 100 with the machine unlocked. -/
def InvAt (t : ℚ) (s : Slider) : Prop :=
  (s.isActivating = true ↔ ∃ t0 v0, s.anim = Anim.toHundred t0 v0)
  ∧ (s.isActivating = true → s.isUnlocked = false)
  ∧ (∀ t0 v0, s.anim = Anim.toHundred t0 v0 → t0 ≤ t ∧ 0 ≤ v0 ∧ v0 < 100)
  ∧ (∀ t0 v0, s.anim = Anim.toZero t0 v0 → t0 ≤ t ∧ 0 ≤ v0 ∧ v0 ≤ 100)
  ∧ (∀ v, s.anim = Anim.idle v → v = 0 ∨ (v = 100 ∧ s.isUnlocked = true))

theorem toZero_valueAt_bounds (t0 v0 t : ℚ) (h0 : 0 ≤ v0) (h1 : v0 ≤ 100) :
    0 ≤ (Anim.toZero t0 v0).valueAt t ∧ (Anim.toZero t0 v0).valueAt t ≤ 100 := by
  simp only [Anim.valueAt]
  have hq0 : (0:ℚ) ≤ max 0 (min (t - t0) 200) := le_max_left 0 _
  have hq1 : max 0 (min (t - t0) 200) ≤ 200 := max_le (by norm_num) (min_le_right _ _)
  have hd : v0 * max 0 (min (t - t0) 200) / 200 ≤ v0 := by
    rw [div_le_iff₀ (by norm_num : (0:ℚ) < 200)]
    nlinarith
  have hd0 : 0 ≤ v0 * max 0 (min (t - t0) 200) / 200 :=
    div_nonneg (mul_nonneg h0 hq0) (by norm_num)
  constructor
  · linarith
  · linarith

theorem toZero_valueAt_lt (t0 v0 t : ℚ) (h0 : 0 ≤ v0) (h1 : v0 ≤ 100)
    (ht : t0 < t) : (Anim.toZero t0 v0).valueAt t < 100 := by
  simp only [Anim.valueAt]
  have hqpos : (0:ℚ) < max 0 (min (t - t0) 200) :=
    lt_max_iff.mpr (Or.inr (lt_min_iff.mpr ⟨by linarith, by norm_num⟩))
  have hd0 : 0 ≤ v0 * max 0 (min (t - t0) 200) / 200 :=
    div_nonneg (mul_nonneg h0 hqpos.le) (by norm_num)
  rcases eq_or_lt_of_le h1 with he | hlt
  · have hpos : 0 < v0 * max 0 (min (t - t0) 200) / 200 :=
      div_pos (mul_pos (by rw [he]; norm_num) hqpos) (by norm_num)
    linarith
  · linarith

theorem toHundred_valueAt_bounds (t0 v0 t : ℚ) (h0 : 0 ≤ v0) (h1 : v0 < 100) :
    0 ≤ (Anim.toHundred t0 v0).valueAt t ∧ (Anim.toHundred t0 v0).valueAt t ≤ 100 := by
  simp only [Anim.valueAt]
  have hq0 : (0:ℚ) ≤ max 0 (min (t - t0) 3000) := le_max_left 0 _
  have hq1 : max 0 (min (t - t0) 3000) ≤ 3000 :=
    max_le (by norm_num) (min_le_right _ _)
  have hd0 : 0 ≤ (100 - v0) * max 0 (min (t - t0) 3000) / 3000 :=
    div_nonneg (mul_nonneg (by linarith) hq0) (by norm_num)
  have hd : (100 - v0) * max 0 (min (t - t0) 3000) / 3000 ≤ 100 - v0 := by
    rw [div_le_iff₀ (by norm_num : (0:ℚ) < 3000)]
    nlinarith
  constructor
  · linarith
  · linarith

theorem toHundred_valueAt_lt (t0 v0 t : ℚ) (_h0 : 0 ≤ v0) (h1 : v0 < 100)
    (ht : t < t0 + 3000) : (Anim.toHundred t0 v0).valueAt t < 100 := by
  simp only [Anim.valueAt]
  have hqlt : max 0 (min (t - t0) 3000) < 3000 :=
    max_lt (by norm_num) (lt_of_le_of_lt (min_le_left _ _) (by linarith))
  have hd : (100 - v0) * max 0 (min (t - t0) 3000) / 3000 < 100 - v0 := by
    rw [div_lt_iff₀ (by norm_num : (0:ℚ) < 3000)]
    nlinarith
  linarith

theorem toHundred_valueAt_end (t0 v0 : ℚ) :
    (Anim.toHundred t0 v0).valueAt (t0 + 3000) = 100 := by
  simp only [Anim.valueAt]
  have he : t0 + 3000 - t0 = (3000:ℚ) := by ring
  rw [he]
  norm_num

theorem valueAt_mem_of_inv (tp t : ℚ) (s : Slider) (hinv : InvAt tp s) :
    0 ≤ s.anim.valueAt t ∧ s.anim.valueAt t ≤ 100 := by
  obtain ⟨_, _, hH, hZ, hI⟩ := hinv
  cases ha : s.anim with
  | idle v =>
    rcases hI v ha with h | ⟨h, _⟩ <;> subst h <;> norm_num [Anim.valueAt]
  | toZero t0 v0 =>
    obtain ⟨_, h0, h1⟩ := hZ t0 v0 ha
    exact toZero_valueAt_bounds t0 v0 t h0 h1
  | toHundred t0 v0 =>
    obtain ⟨_, h0, h1⟩ := hH t0 v0 ha
    exact toHundred_valueAt_bounds t0 v0 t h0 h1

theorem InvAt_mono (t t' : ℚ) (s : Slider) (hinv : InvAt t s) (h : t ≤ t') :
    InvAt t' s := by
  obtain ⟨h1, h2, h3, h4, h5⟩ := hinv
  refine ⟨h1, h2, ?_, ?_, h5⟩
  · intro t0 v0 ha
    obtain ⟨hta, hb⟩ := h3 t0 v0 ha
    exact ⟨hta.trans h, hb⟩
  · intro t0 v0 ha
    obtain ⟨hta, hb⟩ := h4 t0 v0 ha
    exact ⟨hta.trans h, hb⟩

theorem InvAt_resetSlider (tp t : ℚ) (s : Slider) (hinv : InvAt tp s) :
    InvAt t (resetSlider t s) := by
  obtain ⟨hmem0, hmem1⟩ := valueAt_mem_of_inv tp t s hinv
  refine ⟨?_, ?_, ?_, ?_, ?_⟩
  · simp [resetSlider]
  · simp [resetSlider]
  · intro t0 v0 h
    simp [resetSlider] at h
  · intro t0 v0 h
    simp only [resetSlider, Anim.toZero.injEq] at h
    obtain ⟨h1, h2⟩ := h
    subst h1
    subst h2
    exact ⟨le_rfl, hmem0, hmem1⟩
  · intro v h
    simp [resetSlider] at h

theorem InvAt_resetCountdown (tp t : ℚ) (s : Slider) (hinv : InvAt tp s) :
    InvAt t (resetCountdown t s) := by
  obtain ⟨hmem0, hmem1⟩ := valueAt_mem_of_inv tp t s hinv
  refine ⟨?_, ?_, ?_, ?_, ?_⟩
  · simp [resetCountdown]
  · simp [resetCountdown]
  · intro t0 v0 h
    simp [resetCountdown] at h
  · intro t0 v0 h
    simp only [resetCountdown, Anim.toZero.injEq] at h
    obtain ⟨h1, h2⟩ := h
    subst h1
    subst h2
    exact ⟨le_rfl, hmem0, hmem1⟩
  · intro v h
    simp [resetCountdown] at h

theorem InvAt_startCountdown (tp t : ℚ) (s : Slider) (hinv : InvAt tp s)
    (ht : tp < t) (hu : s.isUnlocked = false) (hact : s.isActivating = false) :
    InvAt t (startEmergencyCountdown t s) := by
  have hmem0 : 0 ≤ s.anim.valueAt t := (valueAt_mem_of_inv tp t s hinv).1
  obtain ⟨hiff, himp, hH, hZ, hI⟩ := hinv
  have hvlt : s.anim.valueAt t < 100 := by
    cases ha : s.anim with
    | idle v =>
      rcases hI v ha with h | ⟨_, hcon⟩
      · subst h
        norm_num [Anim.valueAt]
      · rw [hu] at hcon
        cases hcon
    | toZero t0 v0 =>
      obtain ⟨hta, h0, h1⟩ := hZ t0 v0 ha
      exact toZero_valueAt_lt t0 v0 t h0 h1 (lt_of_le_of_lt hta ht)
    | toHundred t0 v0 =>
      have : s.isActivating = true := hiff.mpr ⟨t0, v0, ha⟩
      rw [hact] at this
      cases this
  refine ⟨?_, ?_, ?_, ?_, ?_⟩
  · simp only [startEmergencyCountdown]
    constructor
    · intro _
      exact ⟨t, s.anim.valueAt t, rfl⟩
    · intro _
      trivial
  · intro _
    exact hu
  · intro t0 v0 h
    simp only [startEmergencyCountdown, Anim.toHundred.injEq] at h
    obtain ⟨h1, h2⟩ := h
    subst h1
    subst h2
    exact ⟨le_rfl, hmem0, hvlt⟩
  · intro t0 v0 h
    simp [startEmergencyCountdown] at h
  · intro v h
    simp [startEmergencyCountdown] at h

theorem inv_step (maxX t t' : ℚ) (s : Slider) (e : Ev) (hinv : InvAt t s)
    (ht : t < t') (hg : evGuard s t' e) : InvAt t' (step maxX t' s e) := by
  have hmono : InvAt t' s := InvAt_mono t t' s hinv ht.le
  cases e with
  | move dx =>
    simp only [step]
    by_cases hdu : s.disabled = true ∨ s.isUnlocked = true
    · rw [if_pos hdu]
      exact hmono
    · rw [if_neg hdu]
      push_neg at hdu
      obtain ⟨hd, hu⟩ := hdu
      simp only [ne_eq, Bool.not_eq_true] at hd hu
      by_cases hth : maxX * (9/10) < max 0 (min dx maxX)
      · rw [if_pos hth]
        by_cases hact : s.isActivating = true
        · rw [if_pos hact]
          exact hmono
        · rw [if_neg hact]
          simp only [Bool.not_eq_true] at hact
          exact InvAt_startCountdown t t' _ hinv ht hu hact
      · rw [if_neg hth]
        by_cases hact : s.isActivating = true
        · rw [if_pos hact]
          exact InvAt_resetCountdown t t' _ hinv
        · rw [if_neg hact]
          exact hmono
  | release =>
    simp only [step]
    by_cases hact : s.isActivating = true
    · rw [if_pos hact]
      exact hmono
    · rw [if_neg hact]
      exact InvAt_resetSlider t t' s hinv
  | terminate =>
    simp only [step]
    by_cases hact : s.isActivating = true
    · rw [if_pos hact]
      exact hmono
    · rw [if_neg hact]
      exact InvAt_resetSlider t t' s hinv
  | setDisabled b =>
    simp only [step]
    cases b with
    | true =>
      rw [if_pos rfl]
      exact InvAt_resetSlider t t' _ hinv
    | false =>
      rw [if_neg Bool.false_ne_true]
      exact hmono
  | frame =>
    simp only [step, listenerFire]
    by_cases hfire : 100 ≤ s.anim.valueAt t' ∧ s.isActivating = true
    · exfalso
      obtain ⟨hge, hact⟩ := hfire
      obtain ⟨t0, v0, ha⟩ := hinv.1.mp hact
      obtain ⟨hta, h0, h1⟩ := hinv.2.2.1 t0 v0 ha
      simp only [evGuard, ha] at hg
      have hne : t' ≠ t0 + 3000 := fun h => by
        have := hg.2.mpr h
        simp at this
      have hlt' : t' < t0 + 3000 := lt_of_le_of_ne hg.1 hne
      have := toHundred_valueAt_lt t0 v0 t' h0 h1 hlt'
      rw [ha] at hge
      linarith
    · rw [if_neg hfire]
      exact hmono
  | animDone =>
    cases ha : s.anim with
    | idle v =>
      simp only [step, ha]
      exact hmono
    | toZero t0 v0 =>
      have hact : s.isActivating = false := by
        cases h : s.isActivating
        · rfl
        · obtain ⟨t1, v1, ha1⟩ := hinv.1.mp h
          rw [ha] at ha1
          cases ha1
      simp only [step, ha, listenerFire]
      rw [if_neg (by norm_num : ¬((100:ℚ) ≤ 0 ∧ s.isActivating = true))]
      refine ⟨?_, ?_, ?_, ?_, ?_⟩
      · simp [hact]
      · intro h
        exact hinv.2.1 h
      · intro t1 v1 h
        simp at h
      · intro t1 v1 h
        simp at h
      · intro v1 h
        simp only [Anim.idle.injEq] at h
        exact Or.inl h.symm
    | toHundred t0 v0 =>
      have hact : s.isActivating = true := hinv.1.mpr ⟨t0, v0, ha⟩
      simp only [step, ha, listenerFire]
      rw [if_pos ⟨by norm_num, hact⟩]
      refine ⟨?_, ?_, ?_, ?_, ?_⟩
      · constructor
        · intro h
          cases h
        · intro h
          obtain ⟨t1, v1, h1⟩ := h
          simp at h1
      · intro h
        cases h
      · intro t1 v1 h
        simp at h
      · intro t1 v1 h
        simp at h
      · intro v1 h
        simp only [Anim.idle.injEq] at h
        exact Or.inr ⟨h.symm, rfl⟩

theorem inv_reaches (maxX t : ℚ) (s : Slider) (h : Reaches maxX t s) : InvAt t s := by
  induction h with
  | init d =>
    refine ⟨?_, ?_, ?_, ?_, ?_⟩
    · simp [initSlider]
    · simp [initSlider]
    · intro t0 v0 h
      simp [initSlider] at h
    · intro t0 v0 h
      simp [initSlider] at h
    · intro v h
      simp only [initSlider, Anim.idle.injEq] at h
      exact Or.inl h.symm
  | next hr hlt hg ih => exact inv_step _ _ _ _ _ ih hlt hg

theorem inv_reachesFrom (maxX t : ℚ) (s : Slider) (t2 : ℚ) (s2 : Slider)
    (hinv : InvAt t s) (h : ReachesFrom maxX t s t2 s2) : InvAt t2 s2 := by
  induction h with
  | refl => exact hinv
  | next hr hlt hg ih => exact inv_step _ _ _ _ _ ih hlt hg

theorem unlock_step (maxX tp t' : ℚ) (s : Slider) (e : Ev) (hinv : InvAt tp s)
    (_ht : tp < t') (hg : evGuard s t' e)
    (hu : (step maxX t' s e).isUnlocked = true) :
    s.isUnlocked = true
    ∨ (e = Ev.animDone ∧ s.isActivating = true
        ∧ ∃ t0 v0, s.anim = Anim.toHundred t0 v0 ∧ t' = t0 + 3000) := by
  cases e with
  | move dx =>
    left
    simp only [step] at hu
    by_cases hdu : s.disabled = true ∨ s.isUnlocked = true
    · rwa [if_pos hdu] at hu
    · rw [if_neg hdu] at hu
      by_cases hth : maxX * (9/10) < max 0 (min dx maxX)
      · rw [if_pos hth] at hu
        by_cases hact : s.isActivating = true
        · rwa [if_pos hact] at hu
        · rw [if_neg hact] at hu
          exact hu
      · rw [if_neg hth] at hu
        by_cases hact : s.isActivating = true
        · rw [if_pos hact] at hu
          exact hu
        · rwa [if_neg hact] at hu
  | release =>
    left
    simp only [step] at hu
    by_cases hact : s.isActivating = true
    · rwa [if_pos hact] at hu
    · rw [if_neg hact] at hu
      simp [resetSlider] at hu
  | terminate =>
    left
    simp only [step] at hu
    by_cases hact : s.isActivating = true
    · rwa [if_pos hact] at hu
    · rw [if_neg hact] at hu
      simp [resetSlider] at hu
  | setDisabled b =>
    left
    simp only [step] at hu
    cases b with
    | true =>
      rw [if_pos rfl] at hu
      simp [resetSlider] at hu
    | false =>
      rw [if_neg Bool.false_ne_true] at hu
      exact hu
  | frame =>
    left
    simp only [step, listenerFire] at hu
    by_cases hfire : 100 ≤ s.anim.valueAt t' ∧ s.isActivating = true
    · exfalso
      obtain ⟨hge, hact⟩ := hfire
      obtain ⟨t0, v0, ha⟩ := hinv.1.mp hact
      obtain ⟨hta, h0, h1⟩ := hinv.2.2.1 t0 v0 ha
      simp only [evGuard, ha] at hg
      have hne : t' ≠ t0 + 3000 := fun h => by
        have := hg.2.mpr h
        simp at this
      have hlt' : t' < t0 + 3000 := lt_of_le_of_ne hg.1 hne
      have := toHundred_valueAt_lt t0 v0 t' h0 h1 hlt'
      rw [ha] at hge
      linarith
    · rwa [if_neg hfire] at hu
  | animDone =>
    cases ha : s.anim with
    | idle v =>
      left
      simp only [step, ha] at hu
      exact hu
    | toZero t0 v0 =>
      left
      simp only [step, ha, listenerFire] at hu
      rw [if_neg (by norm_num : ¬((100:ℚ) ≤ 0 ∧ s.isActivating = true))] at hu
      exact hu
    | toHundred t0 v0 =>
      right
      have hact : s.isActivating = true := hinv.1.mpr ⟨t0, v0, ha⟩
      simp only [evGuard, ha] at hg
      exact ⟨rfl, hact, t0, v0, rfl, hg.2.mp trivial⟩

/-- The earliest wall-clock time at which the machine could arm, seen from a
state at time `t`: the scheduled completion of the running countdown, or one
full window beyond `t` when no countdown runs. -/
def armTime (t : ℚ) (s : Slider) : ℚ :=
  match s.anim with
  | Anim.toHundred t0 _ => t0 + 3000
  | _ => t + 3000

theorem armTime_le (t : ℚ) (s : Slider) (hinv : InvAt t s) :
    armTime t s ≤ t + 3000 := by
  cases ha : s.anim with
  | idle v => simp [armTime, ha]
  | toZero t0 v0 => simp [armTime, ha]
  | toHundred t0 v0 =>
    obtain ⟨hta, _, _⟩ := hinv.2.2.1 t0 v0 ha
    simp only [armTime, ha]
    linarith

theorem armTime_mono_step (maxX t t' : ℚ) (s : Slider) (e : Ev) (hinv : InvAt t s)
    (ht : t < t') (hg : evGuard s t' e) :
    armTime t s ≤ armTime t' (step maxX t' s e) := by
  have hub : armTime t s ≤ t + 3000 := armTime_le t s hinv
  have hsame : ∀ s2 : Slider, s2.anim = s.anim → armTime t s ≤ armTime t' s2 := by
    intro s2 hb
    unfold armTime
    rw [hb]
    cases hc : s.anim <;> simp only [] <;> linarith
  have hstart : ∀ sx : Slider, armTime t' (startEmergencyCountdown t' sx) = t' + 3000 := by
    intro sx
    simp [armTime, startEmergencyCountdown]
  have hrsl : ∀ sx : Slider, armTime t' (resetSlider t' sx) = t' + 3000 := by
    intro sx
    simp [armTime, resetSlider]
  have hrcd : ∀ sx : Slider, armTime t' (resetCountdown t' sx) = t' + 3000 := by
    intro sx
    simp [armTime, resetCountdown]
  cases e with
  | move dx =>
    simp only [step]
    by_cases hdu : s.disabled = true ∨ s.isUnlocked = true
    · rw [if_pos hdu]
      exact hsame s rfl
    · rw [if_neg hdu]
      by_cases hth : maxX * (9/10) < max 0 (min dx maxX)
      · rw [if_pos hth]
        by_cases hact : s.isActivating = true
        · rw [if_pos hact]
          exact hsame _ rfl
        · rw [if_neg hact]
          rw [hstart]
          linarith
      · rw [if_neg hth]
        by_cases hact : s.isActivating = true
        · rw [if_pos hact]
          rw [hrcd]
          linarith
        · rw [if_neg hact]
          exact hsame _ rfl
  | release =>
    simp only [step]
    by_cases hact : s.isActivating = true
    · rw [if_pos hact]
      exact hsame s rfl
    · rw [if_neg hact]
      rw [hrsl]
      linarith
  | terminate =>
    simp only [step]
    by_cases hact : s.isActivating = true
    · rw [if_pos hact]
      exact hsame s rfl
    · rw [if_neg hact]
      rw [hrsl]
      linarith
  | setDisabled b =>
    simp only [step]
    cases b with
    | true =>
      rw [if_pos rfl]
      rw [hrsl]
      linarith
    | false =>
      rw [if_neg Bool.false_ne_true]
      exact hsame _ rfl
  | frame =>
    simp only [step, listenerFire]
    by_cases hfire : 100 ≤ s.anim.valueAt t' ∧ s.isActivating = true
    · rw [if_pos hfire]
      exact hsame _ rfl
    · rw [if_neg hfire]
      exact hsame s rfl
  | animDone =>
    cases ha : s.anim with
    | idle v =>
      simp only [step, ha]
      exact hsame s rfl
    | toZero t0 v0 =>
      simp only [step, ha]
      have harm : armTime t'
          { listenerFire 0 s with anim := Anim.idle 0 } = t' + 3000 := by
        simp [armTime]
      rw [harm]
      linarith
    | toHundred t0 v0 =>
      obtain ⟨hta, _, _⟩ := hinv.2.2.1 t0 v0 ha
      simp only [step, ha]
      have harm : armTime t'
          { listenerFire 100 s with anim := Anim.idle 100 } = t' + 3000 := by
        simp [armTime]
      rw [harm]
      simp only [armTime, ha]
      simp only [evGuard, ha] at hg
      have he : t' = t0 + 3000 := hg.2.mp trivial
      linarith

theorem armTime_mono_chain (maxX t : ℚ) (s : Slider) (t2 : ℚ) (s2 : Slider)
    (hinv : InvAt t s) (h : ReachesFrom maxX t s t2 s2) :
    armTime t s ≤ armTime t2 s2 := by
  induction h with
  | refl => exact le_rfl
  | next hr hlt hg ih =>
    have hinv1 := inv_reachesFrom _ _ _ _ _ hinv hr
    exact ih.trans (armTime_mono_step _ _ _ _ _ hinv1 hlt hg)

/-- No run starting below `armed` can unlock before the arming deadline of
its starting state: completing a countdown takes the full window of
wall-clock time measured from the countdown's (re)start. -/
theorem no_early_unlock (maxX t : ℚ) (s : Slider) (T : ℚ) (s2 : Slider)
    (hinv : InvAt t s) (hu : s.isUnlocked = false)
    (hchain : ReachesFrom maxX t s T s2) (hu2 : s2.isUnlocked = true) :
    armTime t s ≤ T := by
  revert hu2
  induction hchain with
  | refl =>
    intro hu2
    rw [hu] at hu2
    exact Bool.noConfusion hu2
  | @next t1 s1 t2 e hr hlt hg ih =>
    intro hu2
    have hinv1 := inv_reachesFrom _ _ _ _ _ hinv hr
    by_cases hu1 : s1.isUnlocked = true
    · have h1 := ih hu1
      linarith
    · rcases unlock_step maxX t1 t2 s1 e hinv1 hlt hg hu2 with
        hleft | ⟨_, _, t0, v0, ha, hT⟩
      · exact absurd hleft hu1
      · have hmon := armTime_mono_chain maxX t s t1 s1 hinv hr
        have heq : armTime t1 s1 = t0 + 3000 := by simp [armTime, ha]
        rw [hT, ← heq]
        exact hmon

/-- C4: in every reachable state of the gesture machine, a step can set
`isUnlocked` (arming, with `onEmergencyActivated` invoked) only as the
countdown animation reaches its scheduled completion - the `animDone` event
of a running 100-target countdown at exactly its start time plus 3000 ms -
and any event hitting a running countdown other than its completion leaves
the machine unarmed: either the countdown is untouched, or it is reset
(isActivating cleared, countdown animated back toward 0), falling back to
dragging/idle and never to armed. -/
theorem C4_armed_only_by_finished_countdown (maxX t : ℚ) (s : Slider)
    (h : Reaches maxX t s) (t' : ℚ) (e : Ev) (ht : t < t') (hg : evGuard s t' e) :
    ((step maxX t' s e).isUnlocked = true →
      s.isUnlocked = true
      ∨ (e = Ev.animDone ∧ s.isActivating = true
          ∧ ∃ t0 v0, s.anim = Anim.toHundred t0 v0 ∧ t' = t0 + 3000))
    ∧ (∀ t0 v0, s.anim = Anim.toHundred t0 v0 → e ≠ Ev.animDone →
        (step maxX t' s e).isUnlocked = false
        ∧ ((step maxX t' s e).isActivating = true ∧ (step maxX t' s e).anim = s.anim
            ∨ (step maxX t' s e).isActivating = false
              ∧ ∃ v1, (step maxX t' s e).anim = Anim.toZero t' v1)) := by
  have hinv := inv_reaches maxX t s h
  constructor
  · exact unlock_step maxX t t' s e hinv ht hg
  · intro t0 v0 ha hne
    have hact : s.isActivating = true := hinv.1.mpr ⟨t0, v0, ha⟩
    have hu : s.isUnlocked = false := hinv.2.1 hact
    cases e with
    | move dx =>
      simp only [step]
      by_cases hdu : s.disabled = true ∨ s.isUnlocked = true
      · rw [if_pos hdu]
        exact ⟨hu, Or.inl ⟨hact, rfl⟩⟩
      · rw [if_neg hdu]
        by_cases hth : maxX * (9/10) < max 0 (min dx maxX)
        · rw [if_pos hth, if_pos hact]
          exact ⟨hu, Or.inl ⟨hact, rfl⟩⟩
        · rw [if_neg hth, if_pos hact]
          exact ⟨hu, Or.inr ⟨rfl, s.anim.valueAt t', rfl⟩⟩
    | release =>
      simp only [step]
      rw [if_pos hact]
      exact ⟨hu, Or.inl ⟨hact, rfl⟩⟩
    | terminate =>
      simp only [step]
      rw [if_pos hact]
      exact ⟨hu, Or.inl ⟨hact, rfl⟩⟩
    | setDisabled b =>
      simp only [step]
      cases b with
      | true =>
        rw [if_pos rfl]
        exact ⟨rfl, Or.inr ⟨rfl, s.anim.valueAt t', rfl⟩⟩
      | false =>
        rw [if_neg Bool.false_ne_true]
        exact ⟨hu, Or.inl ⟨hact, rfl⟩⟩
    | frame =>
      simp only [step, listenerFire]
      have hnofire : ¬(100 ≤ s.anim.valueAt t' ∧ s.isActivating = true) := by
        intro hfire
        obtain ⟨hta, h0, h1⟩ := hinv.2.2.1 t0 v0 ha
        simp only [evGuard, ha] at hg
        have hne2 : t' ≠ t0 + 3000 := fun hh => by
          have := hg.2.mpr hh
          simp at this
        have hlt2 : t' < t0 + 3000 := lt_of_le_of_ne hg.1 hne2
        have hb := toHundred_valueAt_lt t0 v0 t' h0 h1 hlt2
        rw [ha] at hfire
        linarith [hfire.1]
      rw [if_neg hnofire]
      exact ⟨hu, Or.inl ⟨hact, rfl⟩⟩
    | animDone => exact absurd rfl hne

/-- C5: from any reachable state with the touch active (not disabled, not
armed): the first move taking the clamped offset above 90 percent of the
travel while the machine is not arming starts a countdown scheduled to
complete a full 3000 ms later, and along any continuation the machine
cannot arm before that deadline - partial progress from earlier attempts
never accumulates; a move back to or below the threshold while arming
cancels the countdown outright, resetting it toward 0 rather than pausing
it. -/
theorem C5_fresh_window_and_cancel (maxX t : ℚ) (s : Slider)
    (h : Reaches maxX t s) (t' dx : ℚ) (ht : t < t')
    (hg : evGuard s t' (Ev.move dx)) (hd : s.disabled = false)
    (hu : s.isUnlocked = false) :
    (maxX * (9/10) < max 0 (min dx maxX) → s.isActivating = false →
      (step maxX t' s (Ev.move dx)).isActivating = true
      ∧ (step maxX t' s (Ev.move dx)).anim = Anim.toHundred t' (s.anim.valueAt t')
      ∧ (step maxX t' s (Ev.move dx)).anim.endTime = some (t' + 3000)
      ∧ (∀ T s2, ReachesFrom maxX t' (step maxX t' s (Ev.move dx)) T s2 →
          s2.isUnlocked = true → t' + 3000 ≤ T))
    ∧ (max 0 (min dx maxX) ≤ maxX * (9/10) → s.isActivating = true →
      (step maxX t' s (Ev.move dx)).isActivating = false
      ∧ (step maxX t' s (Ev.move dx)).anim = Anim.toZero t' (s.anim.valueAt t')) := by
  have hinv := inv_reaches maxX t s h
  have hdu : ¬(s.disabled = true ∨ s.isUnlocked = true) := by
    simp [hd, hu]
  constructor
  · intro hth hact
    have hstep : step maxX t' s (Ev.move dx)
        = startEmergencyCountdown t' { s with thumbX := max 0 (min dx maxX) } := by
      simp only [step]
      rw [if_neg hdu, if_pos hth, if_neg (by simp [hact])]
    refine ⟨by rw [hstep]; rfl, by rw [hstep]; rfl, by rw [hstep]; rfl, ?_⟩
    intro T s2 hchain hu2
    have hinv' : InvAt t' (step maxX t' s (Ev.move dx)) :=
      inv_step maxX t t' s (Ev.move dx) hinv ht hg
    have hu' : (step maxX t' s (Ev.move dx)).isUnlocked = false := by
      rw [hstep]
      exact hu
    have hne := no_early_unlock maxX t' (step maxX t' s (Ev.move dx)) T s2
      hinv' hu' hchain hu2
    have harm : armTime t' (step maxX t' s (Ev.move dx)) = t' + 3000 := by
      rw [hstep]
      simp [armTime, startEmergencyCountdown]
    linarith [hne, harm.symm.trans_le hne]
  · intro hth hact
    have hstep : step maxX t' s (Ev.move dx)
        = resetCountdown t' { s with thumbX := max 0 (min dx maxX) } := by
      simp only [step]
      rw [if_neg hdu, if_neg (not_lt.mpr hth), if_pos hact]
    rw [hstep]
    exact ⟨rfl, rfl⟩

/-- C10: in a reachable state whose 3000 ms countdown is running (the thumb
crossed the threshold at the countdown's start time `t0`), releasing the
touch or a platform termination of the gesture is a no-op - the countdown
keeps running - and the completion event at `t0 + 3000` still arms the
machine and invokes `onEmergencyActivated` exactly once, even though no
touch was held for the remainder of the window. -/
theorem C10_release_does_not_cancel_arming (maxX t : ℚ) (s : Slider)
    (h : Reaches maxX t s) (t0 v0 : ℚ) (ha : s.anim = Anim.toHundred t0 v0)
    (t' : ℚ) (_ht : t < t') (_hlt : t' < t0 + 3000) :
    step maxX t' s Ev.release = s
    ∧ step maxX t' s Ev.terminate = s
    ∧ (step maxX (t0 + 3000) (step maxX t' s Ev.release) Ev.animDone).isUnlocked
        = true
    ∧ (step maxX (t0 + 3000) (step maxX t' s Ev.release) Ev.animDone).activationCount
        = s.activationCount + 1 := by
  have hinv := inv_reaches maxX t s h
  have hact : s.isActivating = true := hinv.1.mpr ⟨t0, v0, ha⟩
  have hrel : step maxX t' s Ev.release = s := by
    simp only [step]
    rw [if_pos hact]
  have hterm : step maxX t' s Ev.terminate = s := by
    simp only [step]
    rw [if_pos hact]
  have hdone : step maxX (t0 + 3000) s Ev.animDone
      = { listenerFire 100 s with anim := Anim.idle 100 } := by
    simp only [step, ha]
  have hfired : listenerFire 100 s
      = { s with
          isActivating := false
          isUnlocked := true
          activationCount := s.activationCount + 1 } := by
    simp only [listenerFire]
    rw [if_pos ⟨le_refl (100:ℚ), hact⟩]
  refine ⟨hrel, hterm, ?_, ?_⟩
  · rw [hrel, hdone, hfired]
  · rw [hrel, hdone, hfired]

/-- A concrete reachable armed-pending state: travel 10, threshold crossed
at time 1 with the countdown started from 0. -/
def demoSliderA : Slider :=
  ⟨false, true, false, 10, Anim.toHundred 1 0, 0⟩

theorem demoStep1 : step 10 1 (initSlider false) (Ev.move 10) = demoSliderA := by
  norm_num [step, initSlider, startEmergencyCountdown, Anim.valueAt, demoSliderA]

theorem demoSliderA_reachable : Reaches 10 1 demoSliderA := by
  have h := @Reaches.next 10 0 (initSlider false) 1 (Ev.move 10)
    (Reaches.init false) (by norm_num) (by simp [evGuard, initSlider])
  rw [demoStep1] at h
  exact h

theorem C4_witness :
    (step 10 2 demoSliderA Ev.release).isUnlocked = false := by
  have h := C4_armed_only_by_finished_countdown 10 1 demoSliderA
    demoSliderA_reachable 2 Ev.release (by norm_num)
    (by
      refine ⟨by norm_num, ?_, ?_⟩
      · intro hcon
        simp at hcon
      · intro hcon
        norm_num at hcon)
  exact (h.2 1 0 rfl (by simp)).1

theorem C5_witness :
    (step 10 1 (initSlider false) (Ev.move 10)).isActivating = true
    ∧ (step 10 1 (initSlider false) (Ev.move 10)).anim.endTime = some (1 + 3000) := by
  have h := C5_fresh_window_and_cancel 10 0 (initSlider false) (Reaches.init false)
    1 10 (by norm_num) (by simp [evGuard, initSlider]) rfl rfl
  have h1 := h.1 (by norm_num) rfl
  exact ⟨h1.1, h1.2.2.1⟩

theorem C10_witness :
    (step 10 (1 + 3000) (step 10 2 demoSliderA Ev.release) Ev.animDone).isUnlocked
      = true := by
  have h := C10_release_does_not_cancel_arming 10 1 demoSliderA
    demoSliderA_reachable 1 0 rfl 2 (by norm_num) (by norm_num)
  exact h.2.2.1

end Habeas
